import Mathlib

/-!
Verification of the schedule-assembly tool `sunsch.py`.

Dates are modelled as proleptic-Gregorian ordinals (`Nat`, with
`0001-01-01 = 1`, as in Python's `date.toordinal`).  The external
`TimeVector` document (from the `sunbeam` package, not part of this
repository) is modelled from the spec as a list of `(date, lines)`
entries with `load`, `add_keywords`, `delete` and `dates` operations.
The Python locals `filename` and `date` of the insertion loop leak
across iterations; they are threaded explicitly through the state.
-/

namespace Sunsch

/-- Proleptic Gregorian ordinal of a civil date (Hinnant's
`days_from_civil`, shifted so that 0001-01-01 maps to 1, matching
Python's `date.toordinal`). -/
def toRata (y m d : Nat) : Nat :=
  let y2 := if m ≤ 2 then y - 1 else y
  let era := y2 / 400
  let yoe := y2 % 400
  let mp := (m + 9) % 12
  let doy := (153 * mp + 2) / 5 + d - 1
  let doe := yoe * 365 + yoe / 4 - yoe / 100 + doy
  era * 146097 + doe - 305

/-- Civil `(year, month, day)` of an ordinal (Hinnant's `civil_from_days`). -/
def civilFromRata (r : Nat) : Nat × Nat × Nat :=
  let z := r + 305
  let era := z / 146097
  let doe := z % 146097
  let yoe := (doe - doe / 1460 + doe / 36524 - doe / 146096) / 365
  let y2 := yoe + era * 400
  let doy := doe - (365 * yoe + yoe / 4 - yoe / 100)
  let mp := (5 * doy + 2) / 153
  let d := doy - (153 * mp + 2) / 5 + 1
  let m := if mp < 10 then mp + 3 else mp - 9
  if m ≤ 2 then (y2 + 1, m, d) else (y2, m, d)

/-- Day of month, as `date.day`. -/
def dayOf (r : Nat) : Nat := (civilFromRata r).2.2

/-- Month number, as `date.month`. -/
def monthOf (r : Nat) : Nat := (civilFromRata r).2.1

/-- Year, as `date.year`. -/
def yearOf (r : Nat) : Nat := (civilFromRata r).1

/-- Weekday with Monday = 0, as Python's `date.weekday()`
(0001-01-01 was a Monday in the proleptic Gregorian calendar). -/
def weekdayOf (r : Nat) : Nat := (r - 1) % 7

/-- ISO-8601 week number, as `date.isocalendar()[1]`: the week number of
the Thursday lying in the same Monday-based week as `r`. -/
def isoWeekOf (r : Nat) : Nat :=
  let th := r + 4 - (weekdayOf r + 1)
  (th - toRata (yearOf th) 1 1) / 7 + 1

/-- Shift an ordinal by a (possibly negative) number of days, as
`date + datetime.timedelta(days=k)`. -/
def addDays (r : Nat) (k : Int) : Nat := (Int.ofNat r + k).toNat

/-- Errors raised by the tool.  The Python source raises bare
`Exception`/`KeyError`/`NameError`/`IOError` values; each detection
point gets its own constructor, keeping the source's message text. -/
inductive Err where
  | configError (msg : String)
  | keyError (key : String)
  | nameError (var : String)
  | fileNotFound (filename : String)
  | valueError (msg : String)
  | mergeError (msg : String)
  | indexError
  | unsupportedInterval (msg : String)
deriving DecidableEq

/-- Modelled from the spec: a schedule fragment as the external document
parses it — optional leading content lines before the first date marker
(`undated`), then blocks of content lines each carrying its own date. -/
structure SchFile where
  undated : List String
  dated : List (Nat × List String)
deriving DecidableEq

/-- The empty fragment (a freshly created, unwritten temporary file). -/
def SchFile.empty : SchFile := { undated := [], dated := [] }

/-- One element of the `insert` list: a single-key dict whose value has
optional `date`, `days`, `filename`, `string`, `substitute` sub-fields.
Field presence models the Python `'key' in dict` checks; substitution
values are already stringified. -/
structure InsertItem where
  fileid : String
  date : Option Nat
  days : Option Int
  filename : Option String
  string : Option String
  substitute : Option (List (String × String))
deriving DecidableEq

/-- The configured `enddate` value: either a proper calendar date or a
YAML value of a different runtime type (e.g. a datetime), which the
source rejects with `type(enddate) != datetime.date`. -/
inductive EndVal where
  | date (d : Nat)
  | notDate
deriving DecidableEq

/-- The YAML configuration dict; `Option` models key presence. -/
structure Config where
  startdate : Option Nat
  refdate : Option Nat
  init : Option String
  merge : Option (List String)
  insert : Option (List InsertItem)
  enddate : Option EndVal
  dategrid : Option String
deriving DecidableEq

/-- Processing state: the timeline entries (in insertion order), the
temporary files written so far (name and content), the names of
temporary files created on disk and not yet deleted, the temp-name
counter, and the Python locals `date` and `filename` of the insertion
loop, which persist across loop iterations. -/
structure PState where
  schedule : List (Nat × List String)
  tmpStore : List (String × SchFile)
  tmpLive : List String
  tmpCounter : Nat
  dateVar : Option Nat
  filenameVar : Option String
deriving DecidableEq

/-- Substitute every delimited token `<key>` of the mapping in one line,
as the inner loop over `substdict` (the membership guard before
`line.replace` is the identity when the token is absent, so the
unconditional replace is the same function). -/
def substLine (sub : List (String × String)) (line : String) : String :=
  sub.foldl (fun l kv => l.replace ("<" ++ kv.1 ++ ">") kv.2) line

/-- Apply substitution to every line of a fragment. -/
def substSchFile (sub : List (String × String)) (f : SchFile) : SchFile :=
  { undated := f.undated.map (substLine sub)
    dated := f.dated.map (fun e => (e.1, e.2.map (substLine sub))) }

/-- Read a file by name: temporary files written during this call
shadow the base filesystem. -/
def readFile (fs : String → Option SchFile) (store : List (String × SchFile))
    (n : String) : Option SchFile :=
  match store.find? (fun e => e.1 = n) with
  | some e => some e.2
  | none => fs n

/-- Modelled from the spec: `TimeVector.load(source, date=None)` of the
external document.  Parses the named fragment into dated entries; a
given `date` stamps the leading undated content, and undated content
with no date given is a parse error (`DATES` must come first). -/
def loadFile (fs : String → Option SchFile) (store : List (String × SchFile))
    (name : String) (dateOpt : Option Nat) :
    Except Err (List (Nat × List String)) :=
  match readFile fs store name with
  | none => .error (.fileNotFound name)
  | some f =>
    match dateOpt with
    | some d =>
      .ok ((if f.undated.isEmpty then [] else [(d, f.undated)]) ++ f.dated)
    | none =>
      if f.undated.isEmpty then .ok f.dated
      else .error (.valueError ("DATES must be the first keyword in " ++ name))

/-- Insert a date into an ascending duplicate-free list, keeping it
ascending and duplicate-free. -/
def insertDate (d : Nat) : List Nat → List Nat
  | [] => [d]
  | x :: xs =>
    if d < x then d :: x :: xs
    else if d = x then x :: xs
    else x :: insertDate d xs

/-- Modelled from the spec: `TimeVector.dates` — the distinct dates
currently present, ascending. -/
def datesOf (es : List (Nat × List String)) : List Nat :=
  es.foldl (fun acc e => insertDate e.1 acc) []

/-- The clip loop: iterate over a snapshot of the dates, deleting all
entries at each date strictly beyond the end date. -/
def clipFold (ed : Nat) : List Nat → List (Nat × List String) → List (Nat × List String)
  | [], es => es
  | d :: ds, es =>
    clipFold ed ds (if ed < d then es.filter (fun e => e.1 ≠ d) else es)

/-- Clip pass of `process_sch_config`: for every date in
`schedule.dates` beyond the end date, delete its entries. -/
def clipAll (ed : Nat) (es : List (Nat × List String)) : List (Nat × List String) :=
  clipFold ed (datesOf es) es

/-- End-date guarantee of `process_sch_config`: if the end date is not
among the timeline's dates, append an empty keyword blob at it. -/
def ensureEnd (ed : Nat) (es : List (Nat × List String)) : List (Nat × List String) :=
  if ed ∈ datesOf es then es else es ++ [(ed, [""])]

/-- Lines 74–79: choose the initial `TimeVector` (fails when neither
`startdate` nor `refdate` is configured). -/
def baseCheck (conf : Config) : Except Err Unit :=
  match conf.startdate with
  | some _ => .ok ()
  | none =>
    match conf.refdate with
    | some _ => .ok ()
    | none => .error (.configError ("No startdate or refdate given"))

/-- Lines 81–82: default `refdate` to `startdate` when only the latter
is configured (the source mutates the config dict in place). -/
def mutateRef (conf : Config) : Config :=
  if conf.refdate.isNone && conf.startdate.isSome then
    { conf with refdate := conf.startdate }
  else conf

/-- Lines 84–89: load the `init` source stamped at `startdate`; the
`startdate` key is read unconditionally. -/
def phaseInit (fs : String → Option SchFile) (conf : Config) :
    Except Err (List (Nat × List String)) :=
  match conf.init with
  | none => .ok []
  | some f =>
    match conf.startdate with
    | none => .error (.keyError ("startdate"))
    | some sd => loadFile fs [] f (some sd)

/-- Lines 91–98: merge pass.  `ValueError` from a load is wrapped into
an error naming the file; other load failures propagate unchanged. -/
def mergeAll (fs : String → Option SchFile) :
    List (Nat × List String) → List String → Except Err (List (Nat × List String))
  | es, [] => .ok es
  | es, f :: rest =>
    match loadFile fs [] f none with
    | .ok newEs => mergeAll fs (es ++ newEs) rest
    | .error (.valueError msg) => .error (.mergeError ("Error in " ++ f ++ ": " ++ msg))
    | .error e => .error e

/-- Lines 100–147: process a single element of the `insert` list.
Order follows the source: filename determination (only when no inline
`string`), temporary-file creation (always, with `delete=False`),
substitution (reading whatever the Python local `filename` currently
holds), date resolution (`date` first, then `days` overwriting it),
then the load or `add_keywords`. -/
def insertStep (fs : String → Option SchFile) (conf : Config)
    (st : PState) (item : InsertItem) : Except Err PState :=
  let fnVar0 := if item.string.isNone then
      some (item.filename.getD item.fileid)
    else st.filenameVar
  let tmpName := "tmp" ++ toString st.tmpCounter
  let sres : Except Err (List (String × SchFile) × Option String) :=
    match item.substitute with
    | none => .ok (st.tmpStore ++ [(tmpName, SchFile.empty)], fnVar0)
    | some sub =>
      match fnVar0 with
      | none => .error (.nameError ("filename"))
      | some fn =>
        match readFile fs st.tmpStore fn with
        | none => .error (.fileNotFound fn)
        | some f => .ok (st.tmpStore ++ [(tmpName, substSchFile sub f)], some tmpName)
  match sres with
  | .error e => .error e
  | .ok (store, fnVar) =>
    let dv1 := match item.date with
      | some d => some d
      | none => st.dateVar
    let dres : Except Err (Option Nat) :=
      match item.days with
      | none => .ok dv1
      | some k =>
        match conf.refdate with
        | none => .error (.configError
            ("ERROR: When using days in insert statements, you must provide refdate"))
        | some r => .ok (some (addDays r k))
    match dres with
    | .error e => .error e
    | .ok dv =>
      let eres : Except Err (List (Nat × List String)) :=
        match item.string with
        | some s =>
          match dv with
          | none => .error (.nameError ("date"))
          | some d => .ok (st.schedule ++ [(d, [s])])
        | none =>
          match fnVar with
          | none => .error (.nameError ("filename"))
          | some fn =>
            match dv with
            | none => .error (.nameError ("date"))
            | some d =>
              match loadFile fs store fn (some d) with
              | .error e => .error e
              | .ok newEs => .ok (st.schedule ++ newEs)
      match eres with
      | .error e => .error e
      | .ok es =>
        .ok { schedule := es, tmpStore := store, tmpLive := st.tmpLive ++ [tmpName],
              tmpCounter := st.tmpCounter + 1, dateVar := dv, filenameVar := fnVar }

/-- The processing state at the start of the insert loop: schedule as
loaded so far, no temporary files yet, loop locals unset. -/
def initState (es : List (Nat × List String)) : PState :=
  { schedule := es, tmpStore := [], tmpLive := [], tmpCounter := 0,
    dateVar := none, filenameVar := none }

/-- The insert loop over the whole `insert` list. -/
def insertAll (fs : String → Option SchFile) (conf : Config) :
    PState → List InsertItem → Except Err PState
  | st, [] => .ok st
  | st, it :: rest =>
    match insertStep fs conf st it with
    | .error e => .error e
    | .ok st2 => insertAll fs conf st2 rest

/-- Lines 84–147: init load, merge pass and insert pass. -/
def phaseRest (fs : String → Option SchFile) (conf : Config) : Except Err PState :=
  match phaseInit fs conf with
  | .error e => .error e
  | .ok es0 =>
    match (match conf.merge with
           | none => .ok es0
           | some files => mergeAll fs es0 files :
           Except Err (List (Nat × List String))) with
    | .error e => .error e
    | .ok es1 =>
      match conf.insert with
      | none => .ok (initState es1)
      | some items => insertAll fs conf (initState es1) items

/-- Lines 149–159: resolve the end date — last date of the timeline
when `enddate` is absent (IndexError on an empty timeline), otherwise
the configured value, which must be a plain calendar date. -/
def resolveEnd (conf : Config) (es : List (Nat × List String)) : Except Err Nat :=
  match conf.enddate with
  | none =>
    match (datesOf es).getLast? with
    | none => .error .indexError
    | some d => .ok d
  | some (.date d) => .ok d
  | some .notDate =>
    .error (.configError ("ERROR: end-date not in ISO-8601 format, must be YYYY-MM-DD"))

/-- Lines 199–200 of the source. -/
def supportedintervals : List String :=
  ["monthly", "yearly", "weekly", "biweekly", "bimonthly"]

/-- The message of the unsupported-interval failure, as built at
lines 202–204. -/
def unsupportedMsg (interval : String) : String :=
  "Unsupported dategrid interval \"" ++ interval ++ "\". Pick among " ++
    String.intercalate (", ") supportedintervals

/-- The `elif` chain of the date-grid loop body (lines 213–230),
including the unreachable `daily` branch. -/
def gridPred (interval : String) (startwd : Nat) (d : Nat) : Bool :=
  if interval = "monthly" then dayOf d = 1
  else if interval = "bimonthly" then dayOf d = 1 && monthOf d % 2 = 1
  else if interval = "weekly" then weekdayOf d = startwd
  else if interval = "biweekly" then weekdayOf d = startwd && isoWeekOf d % 2 = 1
  else if interval = "yearly" then dayOf d = 1 && monthOf d = 1
  else if interval = "daily" then true
  else false

/-- The `while date <= enddate` loop of `dategrid` (lines 212–231),
with fuel making termination structural; the caller passes enough fuel
to exhaust the loop. -/
def dategridLoop : Nat → (Nat → Bool) → Nat → Nat → List Nat
  | 0, _, _, _ => []
  | fuel + 1, p, e, d =>
    if d ≤ e then
      if p d then d :: dategridLoop fuel p e (d + 1)
      else dategridLoop fuel p e (d + 1)
    else []

/-- The date-grid generator `dategrid(startdate, enddate, interval)`
(lines 181–232). -/
def dategrid (startdate enddate : Nat) (interval : String) : Except Err (List Nat) :=
  if interval ∈ supportedintervals then
    .ok (startdate ::
      dategridLoop (enddate - startdate)
        (gridPred interval (weekdayOf startdate)) enddate (startdate + 1))
  else .error (.unsupportedInterval (unsupportedMsg interval))

/-- Lines 171–177: the date-grid pass, reading the `startdate` key
unconditionally and appending an empty blob at every grid date. -/
def gridPhase (conf : Config) (ed : Nat) (es : List (Nat × List String)) :
    Except Err (List (Nat × List String)) :=
  match conf.dategrid with
  | none => .ok es
  | some ivl =>
    match conf.startdate with
    | none => .error (.keyError ("startdate"))
    | some sd =>
      match dategrid sd ed ivl with
      | .error e => .error e
      | .ok ds => .ok (es ++ ds.map (fun d => (d, [""])))

/-- The assembler `process_sch_config(sunschconf)` (lines 66–179),
returning the final state together with the resolved end date. -/
def process_sch_config (fs : String → Option SchFile) (conf : Config) :
    Except Err (PState × Nat) :=
  match baseCheck conf with
  | .error e => .error e
  | .ok _ =>
    match phaseRest fs (mutateRef conf) with
    | .error e => .error e
    | .ok st =>
      match resolveEnd (mutateRef conf) st.schedule with
      | .error e => .error e
      | .ok ed =>
        match gridPhase (mutateRef conf) ed (ensureEnd ed (clipAll ed st.schedule)) with
        | .error e => .error e
        | .ok es2 => .ok ({ st with schedule := es2 }, ed)

/-- The timeline entries of a processing result, when it succeeded. -/
def entriesOf (x : Except Err (PState × Nat)) : Option (List (Nat × List String)) :=
  x.toOption.map (fun r => r.1.schedule)

/-- The resolved end date of a processing result, when it succeeded. -/
def endOf (x : Except Err (PState × Nat)) : Option Nat :=
  x.toOption.map (fun r => r.2)

/-- The surviving temporary files of a processing result, when it
succeeded. -/
def tmpLiveOf (x : Except Err (PState × Nat)) : Option (List String) :=
  x.toOption.map (fun r => r.1.tmpLive)

/-- An empty configuration, for building concrete test configurations. -/
def emptyConf : Config :=
  { startdate := none, refdate := none, init := none, merge := none,
    insert := none, enddate := none, dategrid := none }

/-- An empty filesystem. -/
def emptyFs : String → Option SchFile := fun _ => none

/-! ### Concrete configurations used to instantiate the theorems -/

/-- A minimal configuration: a start date and an end date. -/
def confW1 : Config := { emptyConf with
  startdate := some (toRata 2020 1 1),
  enddate := some (.date (toRata 2020 6 1)) }

/-- The expected result of processing `confW1`. -/
def resW1 : PState × Nat :=
  ({ initState [(toRata 2020 6 1, [""])] with schedule := [(toRata 2020 6 1, [""])] },
   toRata 2020 6 1)

/-- An insertion carrying both a `date` and a `days` field. -/
def itemX2 : InsertItem :=
  { fileid := "i1", date := some (toRata 2020 1 1), days := some 5,
    filename := none, string := some "X", substitute := none }

/-- A configuration whose single insertion has both date sources. -/
def confX2 : Config := { emptyConf with
  startdate := some (toRata 2020 2 1),
  insert := some [itemX2], enddate := some (.date (toRata 2020 3 1)) }

/-- An insertion with a `days` field, for the amended date-resolution
theorem. -/
def itemW2 : InsertItem :=
  { fileid := "w", date := some (toRata 2020 3 1), days := some 2,
    filename := none, string := some "X", substitute := none }

/-- A configuration with only a reference date. -/
def confW2 : Config := { emptyConf with refdate := some (toRata 2020 1 1) }

/-- The state after processing `itemW2` from a fresh state. -/
def stW2r : PState :=
  { schedule := [(toRata 2020 1 3, ["X"])], tmpStore := [("tmp0", SchFile.empty)],
    tmpLive := ["tmp0"], tmpCounter := 1, dateVar := some (toRata 2020 1 3),
    filenameVar := none }

/-- A configuration whose start date lies after its end date and which
asks for a monthly date grid. -/
def confX4 : Config := { emptyConf with
  startdate := some (toRata 2020 7 1),
  enddate := some (.date (toRata 2020 6 1)), dategrid := some "monthly" }

/-- The end-to-end example of the spec: start 2020-01-01, end
2020-06-01, monthly grid. -/
def confW4 : Config := { emptyConf with
  startdate := some (toRata 2020 1 1),
  enddate := some (.date (toRata 2020 6 1)), dategrid := some "monthly" }

/-- The expected result of processing `confW4`: the end-date marker,
then the six monthly grid markers. -/
def resW4 : PState × Nat :=
  ({ initState [] with schedule :=
      [(toRata 2020 6 1, [""]), (toRata 2020 1 1, [""]), (toRata 2020 2 1, [""]),
       (toRata 2020 3 1, [""]), (toRata 2020 4 1, [""]), (toRata 2020 5 1, [""]),
       (toRata 2020 6 1, [""])] },
   toRata 2020 6 1)

/-- An inline-string insertion with a substitution mapping, as the
module docstring advertises. -/
def itemX5 : InsertItem :=
  { fileid := "well", date := some (toRata 2020 2 1), days := none,
    filename := none, string := some "WELSPECS <NAME> G1",
    substitute := some [("NAME", "P1")] }

/-- A configuration whose first insertion is `itemX5`. -/
def confX5 : Config := { emptyConf with
  startdate := some (toRata 2020 1 1),
  insert := some [itemX5], enddate := some (.date (toRata 2020 3 1)) }

/-- A filesystem holding one templated fragment. -/
def fsX8 : String → Option SchFile := fun n =>
  if n = "ins1" then some { undated := ["WELSPECS <NAME> G1"], dated := [] }
  else none

/-- A file-based insertion with a substitution mapping. -/
def itemX8 : InsertItem :=
  { fileid := "ins1", date := some (toRata 2020 2 1), days := none,
    filename := none, string := none, substitute := some [("NAME", "P1")] }

/-- A configuration whose single insertion substitutes into a file. -/
def confX8 : Config := { emptyConf with
  startdate := some (toRata 2020 1 1),
  insert := some [itemX8], enddate := some (.date (toRata 2020 3 1)) }

/-- A plain inline insertion without substitution. -/
def itemW8 : InsertItem :=
  { fileid := "a", date := some (toRata 2020 2 1), days := none,
    filename := none, string := some "A", substitute := none }

/-- A configuration with one plain insertion. -/
def confW8 : Config := { emptyConf with
  startdate := some (toRata 2020 1 1),
  insert := some [itemW8], enddate := some (.date (toRata 2020 3 1)) }

/-- The expected result of processing `confW8`. -/
def resW8 : PState × Nat :=
  ({ schedule := [(toRata 2020 2 1, ["A"]), (toRata 2020 3 1, [""])],
     tmpStore := [("tmp0", SchFile.empty)], tmpLive := ["tmp0"], tmpCounter := 1,
     dateVar := some (toRata 2020 2 1), filenameVar := none },
   toRata 2020 3 1)

/-- A configuration with a reference date and an init source but no
start date. -/
def confW9 : Config := { emptyConf with
  refdate := some (toRata 2020 1 1), init := some "initfile" }

/-- An insertion with neither a `date` nor a `days` field. -/
def itemW10 : InsertItem :=
  { fileid := "b", date := none, days := none,
    filename := none, string := some "B", substitute := none }

/-- A fresh insert-loop state whose leaked `date` local holds the
previous insertion's resolved date. -/
def stW10 : PState := { initState [] with dateVar := some (toRata 2020 2 1) }

/-! ### Helper lemmas -/

theorem mem_insertDate (x d : Nat) (l : List Nat) :
    x ∈ insertDate d l ↔ x = d ∨ x ∈ l := by
  induction l with
  | nil => simp [insertDate]
  | cons a as ih =>
    simp only [insertDate]
    split
    · simp [List.mem_cons]
    · split
      · rename_i hlt heq
        subst heq
        simp [List.mem_cons]
      · simp [List.mem_cons, ih]
        tauto

theorem mem_foldl_insertDate (x : Nat) (es : List (Nat × List String)) :
    ∀ acc : List Nat,
      (x ∈ es.foldl (fun acc e => insertDate e.1 acc) acc ↔
        x ∈ acc ∨ x ∈ es.map Prod.fst) := by
  induction es with
  | nil => intro acc; simp
  | cons e es ih =>
    intro acc
    simp only [List.foldl_cons, ih, mem_insertDate, List.map_cons, List.mem_cons]
    tauto

theorem mem_datesOf (x : Nat) (es : List (Nat × List String)) :
    x ∈ datesOf es ↔ x ∈ es.map Prod.fst := by
  simp [datesOf, mem_foldl_insertDate]

theorem mem_fst_ensureEnd (ed : Nat) (es : List (Nat × List String)) :
    ed ∈ (ensureEnd ed es).map Prod.fst := by
  unfold ensureEnd
  split
  · rename_i h
    exact (mem_datesOf ed es).mp h
  · simp

theorem mem_ensureEnd (e : Nat × List String) (ed : Nat)
    (es : List (Nat × List String)) (h : e ∈ ensureEnd ed es) :
    e ∈ es ∨ e = (ed, [""]) := by
  unfold ensureEnd at h
  split at h
  · exact Or.inl h
  · simp only [List.mem_append, List.mem_singleton] at h
    exact h

theorem clipFold_bound (ed : Nat) :
    ∀ (ds : List Nat) (es : List (Nat × List String)),
      (∀ e ∈ es, ed < e.1 → e.1 ∈ ds) →
      ∀ e ∈ clipFold ed ds es, e.1 ≤ ed := by
  intro ds
  induction ds with
  | nil =>
    intro es hpre e he
    simp only [clipFold] at he
    by_contra hc
    exact absurd (hpre e he (by omega)) (List.not_mem_nil _)
  | cons d ds ih =>
    intro es hpre e he
    simp only [clipFold] at he
    refine ih _ ?_ e he
    intro e2 he2 hlt
    by_cases hd : ed < d
    · rw [if_pos hd] at he2
      rw [List.mem_filter] at he2
      obtain ⟨he3, hp⟩ := he2
      have hne : e2.1 ≠ d := by simpa using hp
      have := hpre e2 he3 hlt
      rcases List.mem_cons.mp this with h1 | h1
      · exact absurd h1 hne
      · exact h1
    · rw [if_neg hd] at he2
      have := hpre e2 he2 hlt
      rcases List.mem_cons.mp this with h1 | h1
      · omega
      · exact h1

theorem clipAll_bound (ed : Nat) (es : List (Nat × List String)) :
    ∀ e ∈ clipAll ed es, e.1 ≤ ed := by
  intro e he
  refine clipFold_bound ed (datesOf es) es ?_ e he
  intro e2 he2 _
  exact (mem_datesOf _ _).mpr (List.mem_map_of_mem Prod.fst he2)

theorem mem_dategridLoop :
    ∀ (fuel : Nat) (p : Nat → Bool) (e d x : Nat),
      x ∈ dategridLoop fuel p e d → d ≤ x ∧ x ≤ e := by
  intro fuel
  induction fuel with
  | zero => intro p e d x h; simp [dategridLoop] at h
  | succ n ih =>
    intro p e d x h
    simp only [dategridLoop] at h
    split at h
    · rename_i hde
      split at h
      · rcases List.mem_cons.mp h with h1 | h1
        · subst h1; exact ⟨Nat.le_refl x, hde⟩
        · have := ih p e (d + 1) x h1; omega
      · have := ih p e (d + 1) x h; omega
    · simp at h

theorem sorted_dategridLoop :
    ∀ (fuel : Nat) (p : Nat → Bool) (e d : Nat),
      (dategridLoop fuel p e d).Sorted (· ≤ ·) := by
  intro fuel
  induction fuel with
  | zero => intro p e d; simp [dategridLoop]
  | succ n ih =>
    intro p e d
    simp only [dategridLoop]
    split
    · split
      · refine List.sorted_cons.mpr ⟨?_, ih p e (d + 1)⟩
        intro b hb
        have := mem_dategridLoop n p e (d + 1) b hb
        omega
      · exact ih p e (d + 1)
    · simp

theorem gridPhase_append (conf : Config) (ed : Nat)
    (es es2 : List (Nat × List String)) (h : gridPhase conf ed es = .ok es2) :
    ∃ t, es2 = es ++ t := by
  unfold gridPhase at h
  split at h
  · injection h with h
    exact ⟨[], by simp [h]⟩
  · split at h
    · cases h
    · split at h
      · cases h
      · injection h with h
        exact ⟨_, h.symm⟩

theorem mutateRef_startdate (conf : Config) :
    (mutateRef conf).startdate = conf.startdate := by
  unfold mutateRef
  split <;> rfl

theorem mutateRef_insert (conf : Config) :
    (mutateRef conf).insert = conf.insert := by
  unfold mutateRef
  split <;> rfl

deriving instance DecidableEq for Except

theorem dategrid_mem (s e : Nat) (i : String) (l : List Nat)
    (h : dategrid s e i = .ok l) : ∀ x ∈ l, x = s ∨ x ≤ e := by
  unfold dategrid at h
  split at h
  · injection h with h
    subst h
    intro x hx
    rcases List.mem_cons.mp hx with h1 | h1
    · exact Or.inl h1
    · exact Or.inr (mem_dategridLoop _ _ _ _ _ h1).2
  · cases h

/-! ### Claim theorems -/

/-- C3: a configuration with neither `startdate` nor `refdate` makes
`process_sch_config` fail with the configuration error raised at
line 79, before any timeline output is produced. -/
theorem no_dates_gives_config_error (fs : String → Option SchFile)
    (conf : Config) (h1 : conf.startdate = none) (h2 : conf.refdate = none) :
    process_sch_config fs conf =
      .error (.configError ("No startdate or refdate given")) := by
  unfold process_sch_config baseCheck
  rw [h1, h2]

theorem no_dates_gives_config_error_witness :
    emptyConf.startdate = none ∧ emptyConf.refdate = none ∧
    process_sch_config emptyFs emptyConf =
      .error (.configError ("No startdate or refdate given")) :=
  ⟨rfl, rfl, no_dates_gives_config_error emptyFs emptyConf rfl rfl⟩

/-- C9: with a `refdate` and an `init` source but no `startdate`, the
init load at line 88 reads the `startdate` key unconditionally, so
`process_sch_config` fails with a KeyError on `startdate` instead of a
configuration error. -/
theorem init_without_startdate_keyerror (fs : String → Option SchFile)
    (conf : Config) (h1 : conf.startdate = none) (h2 : conf.refdate.isSome)
    (h3 : conf.init.isSome) :
    process_sch_config fs conf = .error (.keyError ("startdate")) := by
  obtain ⟨r, hr⟩ := Option.isSome_iff_exists.mp h2
  obtain ⟨f, hf⟩ := Option.isSome_iff_exists.mp h3
  have hmut : mutateRef conf = conf := by
    unfold mutateRef
    rw [hr]
    simp
  unfold process_sch_config baseCheck phaseRest phaseInit
  rw [h1, hr, hmut, hf, h1]

theorem init_without_startdate_keyerror_witness :
    confW9.startdate = none ∧ confW9.refdate.isSome ∧ confW9.init.isSome ∧
    process_sch_config emptyFs confW9 = .error (.keyError ("startdate")) :=
  ⟨rfl, rfl, rfl, init_without_startdate_keyerror emptyFs confW9 rfl rfl rfl⟩

/-- C1: whenever `process_sch_config` succeeds, the returned timeline
carries at least one entry whose date is exactly the resolved end date
(the guarantee of lines 166–169, preserved by the date-grid pass). -/
theorem end_date_always_present (fs : String → Option SchFile) (conf : Config)
    (r : PState × Nat) (h : process_sch_config fs conf = .ok r) :
    r.2 ∈ r.1.schedule.map Prod.fst := by
  unfold process_sch_config at h
  split at h
  · cases h
  · split at h
    · cases h
    · split at h
      · cases h
      · split at h
        · cases h
        · rename_i es2 hgrid
          injection h with h
          subst h
          obtain ⟨t, ht⟩ := gridPhase_append _ _ _ _ hgrid
          subst ht
          simp only [List.map_append, List.mem_append]
          exact Or.inl (mem_fst_ensureEnd _ _)

theorem end_date_always_present_witness :
    process_sch_config emptyFs confW1 = .ok resW1 ∧
    resW1.2 ∈ resW1.1.schedule.map Prod.fst :=
  ⟨by decide, end_date_always_present emptyFs confW1 resW1 (by decide)⟩

/-- C7: any interval keyword outside the five supported ones — `daily`
included — makes `dategrid` fail with the unsupported-interval error
whose message names the offending value and lists the supported
keywords; no date list is returned. -/
theorem dategrid_unsupported_interval (s e : Nat) (i : String)
    (h : i ∉ supportedintervals) :
    dategrid s e i = .error (.unsupportedInterval (unsupportedMsg i)) := by
  unfold dategrid
  rw [if_neg h]

theorem dategrid_unsupported_interval_witness :
    ("daily" : String) ∉ supportedintervals ∧
    dategrid (toRata 2020 1 1) (toRata 2020 12 31) "daily" =
      .error (.unsupportedInterval (unsupportedMsg "daily")) :=
  ⟨by decide,
   dategrid_unsupported_interval (toRata 2020 1 1) (toRata 2020 12 31) "daily"
     (by decide)⟩

/-- C6 (amended): on success and provided the start date does not
exceed the end date, `dategrid` returns a non-decreasing list whose
first element is the start date and whose elements all lie in
`[start, end]`.  (Without `start ≤ end` the unconditional first element
`start` escapes the interval.) -/
theorem dategrid_sorted_and_bounded (s e : Nat) (i : String) (l : List Nat)
    (hse : s ≤ e) (h : dategrid s e i = .ok l) :
    l.Sorted (· ≤ ·) ∧ l.head? = some s ∧ ∀ x ∈ l, s ≤ x ∧ x ≤ e := by
  unfold dategrid at h
  split at h
  · injection h with h
    subst h
    refine ⟨?_, rfl, ?_⟩
    · refine List.sorted_cons.mpr ⟨?_, sorted_dategridLoop _ _ _ _⟩
      intro b hb
      have := mem_dategridLoop _ _ _ _ _ hb
      omega
    · intro x hx
      rcases List.mem_cons.mp hx with h1 | h1
      · subst h1
        exact ⟨Nat.le_refl x, hse⟩
      · have := mem_dategridLoop _ _ _ _ _ h1
        omega
  · cases h

theorem dategrid_sorted_and_bounded_witness :
    toRata 2020 1 15 ≤ toRata 2020 4 1 ∧
    dategrid (toRata 2020 1 15) (toRata 2020 4 1) "monthly" =
      .ok [toRata 2020 1 15, toRata 2020 2 1, toRata 2020 3 1, toRata 2020 4 1] ∧
    ([toRata 2020 1 15, toRata 2020 2 1, toRata 2020 3 1,
      toRata 2020 4 1].Sorted (· ≤ ·) ∧
     ([toRata 2020 1 15, toRata 2020 2 1, toRata 2020 3 1,
       toRata 2020 4 1] : List Nat).head? = some (toRata 2020 1 15) ∧
     ∀ x ∈ [toRata 2020 1 15, toRata 2020 2 1, toRata 2020 3 1,
            toRata 2020 4 1], toRata 2020 1 15 ≤ x ∧ x ≤ toRata 2020 4 1) :=
  ⟨by decide, by decide,
   dategrid_sorted_and_bounded (toRata 2020 1 15) (toRata 2020 4 1) "monthly"
     [toRata 2020 1 15, toRata 2020 2 1, toRata 2020 3 1, toRata 2020 4 1]
     (by decide) (by decide)⟩

/-- C6 counterexample: with a start date one day after the end date,
`dategrid` succeeds and returns its start date, which lies outside
`[start, end]` — the claim as stated fails for such inputs. -/
theorem dategrid_bounds_counterexample :
    dategrid (toRata 2020 6 2) (toRata 2020 6 1) "monthly" =
      .ok [toRata 2020 6 2] ∧
    ¬ toRata 2020 6 2 ≤ toRata 2020 6 1 := by decide

theorem insertStep_tmpLive (fs : String → Option SchFile) (conf : Config)
    (st : PState) (item : InsertItem) (st2 : PState)
    (h : insertStep fs conf st item = .ok st2) :
    st2.tmpLive = st.tmpLive ++ ["tmp" ++ toString st.tmpCounter] := by
  simp only [insertStep] at h
  split at h
  · cases h
  · split at h
    · cases h
    · split at h
      · cases h
      · injection h with h
        subst h
        rfl

theorem insertAll_tmpLive (fs : String → Option SchFile) (conf : Config) :
    ∀ (items : List InsertItem) (st st2 : PState),
      insertAll fs conf st items = .ok st2 →
      st2.tmpLive.length = st.tmpLive.length + items.length := by
  intro items
  induction items with
  | nil =>
    intro st st2 h
    simp only [insertAll] at h
    injection h with h
    subst h
    simp
  | cons it rest ih =>
    intro st st2 h
    simp only [insertAll] at h
    split at h
    · cases h
    · rename_i st3 hstep
      have h1 := insertStep_tmpLive fs conf st it st3 hstep
      have h2 := ih st3 st2 h
      rw [h2, h1]
      simp [List.length_append]
      omega

theorem phaseRest_tmpLive (fs : String → Option SchFile) (conf : Config)
    (st : PState) (h : phaseRest fs conf = .ok st) :
    st.tmpLive.length = (conf.insert.getD []).length := by
  unfold phaseRest at h
  split at h
  · cases h
  · split at h
    · cases h
    · split at h
      · rename_i hins
        injection h with h
        subst h
        simp [hins, initState]
      · rename_i items hins
        have := insertAll_tmpLive fs conf items (initState _) st h
        simp only [initState, List.length_nil, Nat.zero_add] at this
        rw [hins]
        simpa using this

theorem process_inv (fs : String → Option SchFile) (conf : Config)
    (r : PState × Nat) (h : process_sch_config fs conf = .ok r) :
    ∃ st ed es2,
      phaseRest fs (mutateRef conf) = .ok st ∧
      resolveEnd (mutateRef conf) st.schedule = .ok ed ∧
      gridPhase (mutateRef conf) ed (ensureEnd ed (clipAll ed st.schedule)) =
        .ok es2 ∧
      r = ({ st with schedule := es2 }, ed) := by
  unfold process_sch_config at h
  split at h
  · cases h
  · split at h
    · cases h
    · split at h
      · cases h
      · split at h
        · cases h
        · injection h with h
          exact ⟨_, _, _, by assumption, by assumption, by assumption, h.symm⟩

/-- C2 (amended): when an insertion configures a `days` field and a
reference date is available, the effective insertion date is
`refdate + days` — the `days` branch, checked last (lines 136–142),
silently overwrites any date taken from the `date` field. -/
theorem days_overrides_date (fs : String → Option SchFile) (conf : Config)
    (st : PState) (item : InsertItem) (k : Int) (r : Nat) (st2 : PState)
    (hk : item.days = some k) (hr : conf.refdate = some r)
    (h : insertStep fs conf st item = .ok st2) :
    st2.dateVar = some (addDays r k) := by
  simp only [insertStep, hk, hr] at h
  split at h
  · cases h
  · split at h
    · cases h
    · injection h with h
      subst h
      rfl

theorem days_overrides_date_witness :
    insertStep emptyFs confW2 (initState []) itemW2 = .ok stW2r ∧
    stW2r.dateVar = some (addDays (toRata 2020 1 1) 2) :=
  ⟨by decide,
   days_overrides_date emptyFs confW2 (initState []) itemW2 2 (toRata 2020 1 1)
     stW2r rfl rfl (by decide)⟩

/-- C2 counterexample: an insertion carrying both `date = 2020-01-01`
and `days = 5` (reference date 2020-02-01) ends up at 2020-02-06, not
at its `date` field — the `date` field does not win. -/
theorem date_field_overridden_counterexample :
    itemX2.date = some (toRata 2020 1 1) ∧ itemX2.days = some 5 ∧
    entriesOf (process_sch_config emptyFs confX2) =
      some [(toRata 2020 2 6, ["X"]), (toRata 2020 3 1, [""])] ∧
    toRata 2020 1 1 ∉ [toRata 2020 2 6, toRata 2020 3 1] := by decide

/-- C10: an insertion with neither `date` nor `days` leaves the loop
local `date` untouched — a NameError if it is the first insertion, and
a silent reuse of the previous insertion's resolved date otherwise. -/
theorem missing_date_reuses_previous (fs : String → Option SchFile)
    (conf : Config) (st : PState) (item : InsertItem) (s : String)
    (h1 : item.date = none) (h2 : item.days = none)
    (h3 : item.substitute = none) (h4 : item.string = some s) :
    (st.dateVar = none →
      insertStep fs conf st item = .error (.nameError ("date"))) ∧
    (∀ d, st.dateVar = some d →
      ∃ st2, insertStep fs conf st item = .ok st2 ∧
        st2.dateVar = some d ∧ (d, [s]) ∈ st2.schedule) := by
  constructor
  · intro hd
    simp [insertStep, h1, h2, h3, h4, hd]
  · intro d hd
    refine ⟨{ schedule := st.schedule ++ [(d, [s])],
              tmpStore := st.tmpStore ++
                [("tmp" ++ toString st.tmpCounter, SchFile.empty)],
              tmpLive := st.tmpLive ++ ["tmp" ++ toString st.tmpCounter],
              tmpCounter := st.tmpCounter + 1, dateVar := some d,
              filenameVar := st.filenameVar }, ?_, rfl, ?_⟩
    · simp [insertStep, h1, h2, h3, h4, hd]
    · simp

theorem missing_date_reuses_previous_witness :
    (insertStep emptyFs emptyConf (initState []) itemW10 =
      .error (.nameError ("date"))) ∧
    (∃ st2, insertStep emptyFs emptyConf stW10 itemW10 = .ok st2 ∧
      st2.dateVar = some (toRata 2020 2 1) ∧
      (toRata 2020 2 1, ["B"]) ∈ st2.schedule) :=
  ⟨(missing_date_reuses_previous emptyFs emptyConf (initState []) itemW10 "B"
      rfl rfl rfl rfl).1 rfl,
   (missing_date_reuses_previous emptyFs emptyConf stW10 itemW10 "B"
      rfl rfl rfl rfl).2 (toRata 2020 2 1) rfl⟩

/-- C5: an inline-string insertion with a substitution mapping makes
the whole run fail with a NameError on the Python local `filename`
(lines 109–118 never assign it when `string` is present), instead of
substituting into the inline text as the module docstring promises. -/
theorem inline_substitute_nameerror :
    itemX5.string.isSome ∧ itemX5.substitute.isSome ∧
    process_sch_config emptyFs confX5 =
      .error (.nameError ("filename")) := by decide

/-- C8 (amended): every insertion spec — with or without a substitution
mapping — creates one temporary file with `delete=False`, and none is
ever deleted: after a successful run exactly one temporary file per
insertion spec persists. -/
theorem one_tmpfile_per_insert (fs : String → Option SchFile) (conf : Config)
    (r : PState × Nat) (h : process_sch_config fs conf = .ok r) :
    r.1.tmpLive.length = (conf.insert.getD []).length := by
  obtain ⟨st, ed, es2, hrest, hend, hgrid, hr⟩ := process_inv fs conf r h
  subst hr
  have := phaseRest_tmpLive fs (mutateRef conf) st hrest
  simpa [mutateRef_insert] using this

theorem one_tmpfile_per_insert_witness :
    process_sch_config emptyFs confW8 = .ok resW8 ∧
    resW8.1.tmpLive.length = (confW8.insert.getD []).length :=
  ⟨by decide, one_tmpfile_per_insert emptyFs confW8 resW8 (by decide)⟩

/-- C8 counterexample: a successful run whose single insertion uses a
substitution mapping leaves its temporary file alive after
`process_sch_config` returns. -/
theorem tmpfile_persists_counterexample :
    itemX8.substitute = some [("NAME", "P1")] ∧
    tmpLiveOf (process_sch_config fsX8 confX8) = some ["tmp0"] ∧
    (["tmp0"] : List String) ≠ [] := by decide

/-- C4 (amended): after a successful run no timeline entry lies beyond
the resolved end date, provided the configured start date does not
exceed it — otherwise the date-grid pass (lines 173–177) re-adds a
marker at the start date after the clip. -/
theorem no_entry_beyond_enddate (fs : String → Option SchFile) (conf : Config)
    (r : PState × Nat) (h : process_sch_config fs conf = .ok r)
    (hsd : ∀ sd, conf.startdate = some sd → sd ≤ r.2) :
    ∀ e ∈ r.1.schedule, e.1 ≤ r.2 := by
  obtain ⟨st, ed, es2, hrest, hend, hgrid, hr⟩ := process_inv fs conf r h
  subst hr
  intro e he
  simp only at he ⊢
  unfold gridPhase at hgrid
  split at hgrid
  · injection hgrid with hgrid
    subst hgrid
    rcases mem_ensureEnd e ed _ he with h1 | h1
    · exact clipAll_bound ed st.schedule e h1
    · rw [h1]
  · split at hgrid
    · cases hgrid
    · rename_i sd hsd2
      split at hgrid
      · cases hgrid
      · rename_i ds hds
        injection hgrid with hgrid
        subst hgrid
        rcases List.mem_append.mp he with h1 | h1
        · rcases mem_ensureEnd e ed _ h1 with h2 | h2
          · exact clipAll_bound ed st.schedule e h2
          · rw [h2]
        · obtain ⟨d, hd, hde⟩ := List.mem_map.mp h1
          subst hde
          rcases dategrid_mem _ _ _ _ hds d hd with h2 | h2
          · subst h2
            have hss : conf.startdate = some d := by
              rw [← mutateRef_startdate]
              exact hsd2
            exact hsd d hss
          · exact h2

theorem no_entry_beyond_enddate_witness :
    process_sch_config emptyFs confW4 = .ok resW4 ∧
    ∀ e ∈ resW4.1.schedule, e.1 ≤ resW4.2 :=
  ⟨by decide,
   no_entry_beyond_enddate emptyFs confW4 resW4 (by decide)
     (fun sd hs => by
       have h2 : confW4.startdate = some (toRata 2020 1 1) := rfl
       rw [h2] at hs
       have h3 := Option.some.inj hs
       rw [← h3]
       decide)⟩

/-- C4 counterexample: with start date 2020-07-01, end date 2020-06-01
and a monthly date grid, the run succeeds and the returned timeline
contains an entry dated 2020-07-01 — strictly beyond the end date. -/
theorem entry_beyond_enddate_counterexample :
    entriesOf (process_sch_config emptyFs confX4) =
      some [(toRata 2020 6 1, [""]), (toRata 2020 7 1, [""])] ∧
    endOf (process_sch_config emptyFs confX4) = some (toRata 2020 6 1) ∧
    ¬ toRata 2020 7 1 ≤ toRata 2020 6 1 := by decide

end Sunsch
